import Mathlib

/-!
Shallow embedding of the ArbitrageBot repository (Yakupovildar/ArbitrageBot).

Python float arithmetic is modelled by exact rational arithmetic (ℚ); all the
verified properties are sign / threshold comparisons that the source performs
on plain products and quotients of prices, so the embedding is faithful up to
floating-point rounding.  Python dicts keyed by strings are modelled as
association lists with replace-or-append update, matching dict assignment
semantics.  Wall-clock time and asyncio.sleep are modelled by an explicit
rational clock argument where sleep(d) advances the clock by exactly d.
-/

namespace ArbitrageBot

/-! ### Config constants (src/config.py, dataclass Config) -/

/-- config.py: RATE_LIMIT_DELAY = 1.0 (seconds between requests). -/
def RATE_LIMIT_DELAY : ℚ := 1

/-- config.py: MAX_REQUESTS_PER_MINUTE = 20. -/
def MAX_REQUESTS_PER_MINUTE : ℕ := 20

/-- config.py: RETRY_ATTEMPTS = 1. -/
def RETRY_ATTEMPTS : ℕ := 1

/-- config.py: RETRY_DELAY = 5.0. -/
def RETRY_DELAY : ℚ := 5

/-- config.py: BACKOFF_MULTIPLIER = 4.0. -/
def BACKOFF_MULTIPLIER : ℚ := 4

/-- config.py: MAX_PAIRS_PER_BATCH = 3. -/
def MAX_PAIRS_PER_BATCH : ℕ := 3

/-- config.py: SMART_ROTATION_ENABLED = True. -/
def SMART_ROTATION_ENABLED : Bool := true

/-- config.py: MIN_SPREAD_THRESHOLD = 1.0 (percent). -/
def MIN_SPREAD_THRESHOLD : ℚ := 1

/-- config.py: SPREAD_LEVEL_2 = 2.0 (percent). -/
def SPREAD_LEVEL_2 : ℚ := 2

/-- config.py: SPREAD_LEVEL_3 = 3.0 (percent). -/
def SPREAD_LEVEL_3 : ℚ := 3

/-! ### Data model (src/arbitrage_calculator.py) -/

/-- arbitrage_calculator.py, dataclass ArbitrageSignal. -/
structure ArbitrageSignal where
  stock_ticker : String
  futures_ticker : String
  stock_price : ℚ
  futures_price : ℚ
  spread_percent : ℚ
  action : String
  stock_position : String
  futures_position : String
  stock_lots : ℤ
  futures_lots : ℤ
  timestamp : String
  urgency_level : ℕ
deriving DecidableEq, Repr

/-- arbitrage_calculator.py, NamedTuple ArbitragePosition. -/
structure ArbitragePosition where
  stock_ticker : String
  futures_ticker : String
  stock_position : String
  futures_position : String
  entry_spread : ℚ
  stock_lots : ℤ
  futures_lots : ℤ
  entry_timestamp : String
deriving DecidableEq, Repr

/-- The `self.open_positions` dict, keyed by "stock_futures". -/
abbrev Positions := List (String × ArbitragePosition)

/-- Python dict assignment `d[k] = v`: replace the binding if the key is
present, else add a new binding. -/
def dictInsert (m : Positions) (k : String) (v : ArbitragePosition) : Positions :=
  if (m.lookup k).isSome then
    m.map (fun p => if p.1 = k then (k, v) else p)
  else
    m ++ [(k, v)]

/-- Python `d.pop(k)` restricted to the resulting dict. -/
def dictPop (m : Positions) (k : String) : Positions :=
  m.filter (fun p => p.1 ≠ k)

/-- arbitrage_calculator.py, ArbitrageCalculator.calculate_spread (lines 42-66):
returns None when either price is non-positive, otherwise
((futures_price - stock_price) / stock_price) * 100.  The ticker arguments are
used only for logging in the source. -/
def calculate_spread (stock_price futures_price : ℚ)
    (stock_ticker futures_ticker : String) : Option ℚ :=
  let _ := stock_ticker
  let _ := futures_ticker
  if stock_price ≤ 0 ∨ futures_price ≤ 0 then none
  else some ((futures_price - stock_price) / stock_price * 100)

/-- config.py, Config.get_lot_multipliers (lines 454-465): the literal dict. -/
def get_lot_multipliers : List (String × ℕ) :=
  [("Si", 1000), ("RTS", 1), ("MIX", 1), ("BR", 10), ("GOLD", 1), ("SILV", 1)]

/-- Python: self.config.get_lot_multipliers().get(stock_ticker, 1). -/
def stockLotSize (ticker : String) : ℚ :=
  ((get_lot_multipliers.lookup ticker).getD 1 : ℕ)

/-- The current config.py defines no method get_futures_lot_value (only the
stale config_backup_broken.py and src/versions copies do), so the attribute
lookup `self.config.get_futures_lot_value` raises AttributeError on every
call.  We model the lookup result as `none` for every ticker. -/
def get_futures_lot_value (ticker : String) : Option ℚ :=
  let _ := ticker
  none

/-- arbitrage_calculator.py, calculate_position_sizes (lines 68-99).  The
`none` branch is the `except Exception` handler: with the live config the
call to get_futures_lot_value raises AttributeError, so the handler fires and
(1, 1) is returned.  The other branches transcribe the ratio logic of the
source (Python `//` on positive operands is the floor of the quotient). -/
def calculate_position_sizes (stock_ticker futures_ticker : String) : ℤ × ℤ :=
  match get_futures_lot_value futures_ticker with
  | none => (1, 1)
  | some futures_lot_value =>
    let stock_lot_size := stockLotSize stock_ticker
    if stock_lot_size = futures_lot_value then (1, 1)
    else if stock_lot_size > futures_lot_value then
      (1, ⌊stock_lot_size / futures_lot_value⌋)
    else
      (⌊futures_lot_value / stock_lot_size⌋, 1)

/-- arbitrage_calculator.py, _check_close_signal (lines 129-164). -/
def checkCloseSignal (position : ArbitragePosition) (current_spread : ℚ)
    (stock_price futures_price : ℚ) (timestamp : String) : Option ArbitrageSignal :=
  let abs_spread := |current_spread|
  let entry_spread_abs := |position.entry_spread|
  let spread_reduction := entry_spread_abs - abs_spread
  let spread_reduction_percent :=
    if entry_spread_abs > 0 then spread_reduction / entry_spread_abs * 100 else 0
  if spread_reduction_percent ≥ 50 ∧ abs_spread ≤ 1/2 then
    some { stock_ticker := position.stock_ticker
           futures_ticker := position.futures_ticker
           stock_price := stock_price
           futures_price := futures_price
           spread_percent := current_spread
           action := "CLOSE"
           stock_position := if position.stock_position = "BUY" then "SELL" else "BUY"
           futures_position := if position.futures_position = "BUY" then "SELL" else "BUY"
           stock_lots := position.stock_lots
           futures_lots := position.futures_lots
           timestamp := timestamp
           urgency_level := 1 }
  else
    none

/-- arbitrage_calculator.py, _generate_open_signal (lines 166-207). -/
def generateOpenSignal (stock_ticker futures_ticker : String)
    (stock_price futures_price spread : ℚ) (timestamp : String) : ArbitrageSignal :=
  let abs_spread := |spread|
  let stock_position := if spread > 0 then "BUY" else "SELL"
  let futures_position := if spread > 0 then "SELL" else "BUY"
  let lots := calculate_position_sizes stock_ticker futures_ticker
  let urgency_level : ℕ :=
    if abs_spread ≥ SPREAD_LEVEL_3 then 3
    else if abs_spread ≥ SPREAD_LEVEL_2 then 2
    else 1
  { stock_ticker := stock_ticker
    futures_ticker := futures_ticker
    stock_price := stock_price
    futures_price := futures_price
    spread_percent := spread
    action := "OPEN"
    stock_position := stock_position
    futures_position := futures_position
    stock_lots := lots.1
    futures_lots := lots.2
    timestamp := timestamp
    urgency_level := urgency_level }

/-- arbitrage_calculator.py, analyze_arbitrage_opportunity (lines 101-127).
`open_positions` is passed explicitly (it is `self.open_positions` in the
source); `min_spread_threshold` is the caller-supplied threshold (non-None in
every call site, so the `is not None` fallback to MIN_SPREAD_THRESHOLD is
taken with the argument itself). -/
def analyze_arbitrage_opportunity (open_positions : Positions)
    (stock_ticker futures_ticker : String) (stock_price futures_price : ℚ)
    (timestamp : String) (min_spread_threshold : ℚ) : Option ArbitrageSignal :=
  match calculate_spread stock_price futures_price stock_ticker futures_ticker with
  | none => none
  | some spread =>
    let position_key := stock_ticker ++ "_" ++ futures_ticker
    match open_positions.lookup position_key with
    | some position =>
        checkCloseSignal position spread stock_price futures_price timestamp
    | none =>
        if |spread| ≥ min_spread_threshold then
          some (generateOpenSignal stock_ticker futures_ticker stock_price
                  futures_price spread timestamp)
        else
          none

/-- arbitrage_calculator.py, register_position (lines 209-226). -/
def register_position (open_positions : Positions) (signal : ArbitrageSignal) : Positions :=
  if signal.action = "OPEN" then
    dictInsert open_positions (signal.stock_ticker ++ "_" ++ signal.futures_ticker)
      { stock_ticker := signal.stock_ticker
        futures_ticker := signal.futures_ticker
        stock_position := signal.stock_position
        futures_position := signal.futures_position
        entry_spread := signal.spread_percent
        stock_lots := signal.stock_lots
        futures_lots := signal.futures_lots
        entry_timestamp := signal.timestamp }
  else
    open_positions

/-- arbitrage_calculator.py, close_position (lines 228-238), restricted to the
effect on the open_positions dict. -/
def close_position (open_positions : Positions) (signal : ArbitrageSignal) : Positions :=
  if signal.action = "CLOSE" then
    dictPop open_positions (signal.stock_ticker ++ "_" ++ signal.futures_ticker)
  else
    open_positions

/-- monitoring.py, one iteration of the loop body of _analyze_quotes
(lines 173-219) for a single stock ticker: skip when either quote is missing,
otherwise analyze and register/close on an OPEN/CLOSE signal.  Returns the
emitted signal (if any) and the updated open_positions dict. -/
def processQuote (open_positions : Positions) (stock_ticker futures_ticker : String)
    (stock_price futures_price : Option ℚ) (timestamp : String)
    (min_threshold : ℚ) : Option ArbitrageSignal × Positions :=
  match stock_price, futures_price with
  | some sp, some fp =>
    match analyze_arbitrage_opportunity open_positions stock_ticker futures_ticker
        sp fp timestamp min_threshold with
    | some signal =>
        (some signal,
          if signal.action = "OPEN" then register_position open_positions signal
          else if signal.action = "CLOSE" then close_position open_positions signal
          else open_positions)
    | none => (none, open_positions)
  | _, _ => (none, open_positions)

/-! ### Helper lemmas -/

/-- For positive prices calculate_spread succeeds with the percentage formula. -/
lemma calculate_spread_of_pos (s f : ℚ) (st fu : String) (hs : 0 < s) (hf : 0 < f) :
    calculate_spread s f st fu = some ((f - s) / s * 100) := by
  have hcond : ¬ (s ≤ 0 ∨ f ≤ 0) := by push_neg; exact ⟨hs, hf⟩
  simp [calculate_spread, hcond]

/-- checkCloseSignal fires exactly when the source's two-part condition holds. -/
lemma checkCloseSignal_isSome_iff (pos : ArbitragePosition) (c s f : ℚ) (ts : String) :
    (checkCloseSignal pos c s f ts).isSome ↔
      ((if |pos.entry_spread| > 0
          then (|pos.entry_spread| - |c|) / |pos.entry_spread| * 100
          else 0) ≥ 50 ∧ |c| ≤ 1/2) := by
  unfold checkCloseSignal
  split
  · next h => simp [h]
  · next h => simp [h]

/-- Any signal produced by checkCloseSignal is the CLOSE record of the source. -/
lemma checkCloseSignal_eq_some (pos : ArbitragePosition) (c s f : ℚ) (ts : String)
    (sig : ArbitrageSignal) (h : checkCloseSignal pos c s f ts = some sig) :
    sig = { stock_ticker := pos.stock_ticker
            futures_ticker := pos.futures_ticker
            stock_price := s
            futures_price := f
            spread_percent := c
            action := "CLOSE"
            stock_position := if pos.stock_position = "BUY" then "SELL" else "BUY"
            futures_position := if pos.futures_position = "BUY" then "SELL" else "BUY"
            stock_lots := pos.stock_lots
            futures_lots := pos.futures_lots
            timestamp := ts
            urgency_level := 1 } := by
  simp only [checkCloseSignal] at h
  by_cases hc : ((if |pos.entry_spread| > 0
      then (|pos.entry_spread| - |c|) / |pos.entry_spread| * 100
      else 0) ≥ 50 ∧ |c| ≤ 1 / 2)
  · rw [if_pos hc] at h
    exact (Option.some_inj.mp h).symm
  · rw [if_neg hc] at h
    exact absurd h (by simp)

/-- Rescaling by the source's factor 100: x * 100 ≥ 50 iff x ≥ 1/2. -/
lemma times_hundred_ge_fifty (x : ℚ) : x * 100 ≥ 50 ↔ x ≥ 1/2 := by
  constructor <;> intro h <;> linarith

/-! ### Claim C3 -/

/-- C3: for positive prices calculate_spread returns
((futures_price - stock_price) / stock_price) * 100, the value is strictly
positive iff futures_price > stock_price, and the function is deterministic. -/
theorem C3_calculate_spread_formula (s f : ℚ) (st fu : String)
    (hs : 0 < s) (hf : 0 < f) :
    calculate_spread s f st fu = some ((f - s) / s * 100)
    ∧ (0 < (f - s) / s * 100 ↔ s < f)
    ∧ (∀ s2 f2 : ℚ, s2 = s → f2 = f →
        calculate_spread s2 f2 st fu = calculate_spread s f st fu) := by
  refine ⟨?_, ?_, ?_⟩
  · have hcond : ¬ (s ≤ 0 ∨ f ≤ 0) := by push_neg; exact ⟨hs, hf⟩
    simp [calculate_spread, hcond]
  · constructor
    · intro h
      by_contra hle
      push_neg at hle
      have hnum : f - s ≤ 0 := by linarith
      have : (f - s) / s ≤ 0 := div_nonpos_of_nonpos_of_nonneg hnum (le_of_lt hs)
      nlinarith
    · intro h
      have hnum : 0 < f - s := by linarith
      have : 0 < (f - s) / s := div_pos hnum hs
      nlinarith
  · intro s2 f2 hs2 hf2
    rw [hs2, hf2]

/-- Witness for C3 at stock price 100, futures price 102. -/
theorem C3_calculate_spread_formula_witness :
    calculate_spread 100 102 "SBER" "SBERF" = some ((102 - 100) / 100 * 100)
    ∧ (0 < ((102:ℚ) - 100) / 100 * 100 ↔ (100:ℚ) < 102)
    ∧ (∀ s2 f2 : ℚ, s2 = 100 → f2 = 102 →
        calculate_spread s2 f2 "SBER" "SBERF" = calculate_spread 100 102 "SBER" "SBERF") :=
  C3_calculate_spread_formula 100 102 "SBER" "SBERF" (by norm_num) (by norm_num)

/-! ### Claim C1 -/

/-- C1: for an open position with entry spread E ≠ 0 and fresh positive prices
yielding current spread c, a CLOSE signal is emitted iff both the spread
reduction (|E| - |c|)/|E| is at least 1/2 and |c| ≤ 0.5; when the conjunction
fails, the analysis pass emits no signal and leaves the positions dict
unchanged (the position stays open). -/
theorem C1_close_signal_iff (pos : ArbitragePosition) (s f : ℚ) (ts : String)
    (hE : pos.entry_spread ≠ 0) (hs : 0 < s) (hf : 0 < f) :
    ((checkCloseSignal pos ((f - s) / s * 100) s f ts).isSome ↔
      ((|pos.entry_spread| - |(f - s) / s * 100|) / |pos.entry_spread| ≥ 1/2
        ∧ |(f - s) / s * 100| ≤ 1/2))
    ∧ (∀ (positions : Positions) (st fu : String) (thr : ℚ),
        positions.lookup (st ++ "_" ++ fu) = some pos →
        ¬ ((|pos.entry_spread| - |(f - s) / s * 100|) / |pos.entry_spread| ≥ 1/2
            ∧ |(f - s) / s * 100| ≤ 1/2) →
        processQuote positions st fu (some s) (some f) ts thr = (none, positions)) := by
  have hEpos : (0:ℚ) < |pos.entry_spread| := abs_pos.mpr hE
  have hiff : ∀ c : ℚ, (checkCloseSignal pos c s f ts).isSome ↔
      ((|pos.entry_spread| - |c|) / |pos.entry_spread| ≥ 1/2 ∧ |c| ≤ 1/2) := by
    intro c
    rw [checkCloseSignal_isSome_iff]
    rw [if_pos hEpos]
    rw [times_hundred_ge_fifty]
  refine ⟨hiff _, ?_⟩
  intro positions st fu thr hlook hnot
  have hclose : checkCloseSignal pos ((f - s) / s * 100) s f ts = none := by
    have := (hiff ((f - s) / s * 100)).not.mpr hnot
    simpa [Option.not_isSome_iff_eq_none] using this
  have hanalyze : analyze_arbitrage_opportunity positions st fu s f ts thr = none := by
    simp only [analyze_arbitrage_opportunity, calculate_spread_of_pos s f st fu hs hf,
      hlook, hclose]
  simp [processQuote, hanalyze]

/-- A concrete open position used by the C1 witness: entry spread 2%. -/
def posC1 : ArbitragePosition :=
  { stock_ticker := "SBER"
    futures_ticker := "SBERF"
    stock_position := "BUY"
    futures_position := "SELL"
    entry_spread := 2
    stock_lots := 1
    futures_lots := 1
    entry_timestamp := "t0" }

/-- Witness for C1: entry spread 2, prices 100 and 100.2 give current spread
0.2 with a 90% reduction (CLOSE fires); prices 100 and 101.6 give current
spread 1.6 where neither condition holds so nothing changes. -/
theorem C1_close_signal_iff_witness :
    ((checkCloseSignal posC1 ((100.2 - 100) / 100 * 100) 100 100.2 "t1").isSome ↔
      ((|posC1.entry_spread| - |((100.2:ℚ) - 100) / 100 * 100|) / |posC1.entry_spread| ≥ 1/2
        ∧ |((100.2:ℚ) - 100) / 100 * 100| ≤ 1/2))
    ∧ processQuote [("SBER_SBERF", posC1)] "SBER" "SBERF" (some 100) (some 101.6) "t1" 1
      = (none, [("SBER_SBERF", posC1)]) := by
  constructor
  · exact (C1_close_signal_iff posC1 100 100.2 "t1"
      (by norm_num [posC1]) (by norm_num) (by norm_num)).1
  · exact (C1_close_signal_iff posC1 100 101.6 "t1"
      (by norm_num [posC1]) (by norm_num) (by norm_num)).2
      _ "SBER" "SBERF" 1 (by decide)
      (by
        have h85 : |(8:ℚ) / 5| = 8 / 5 := abs_of_pos (by norm_num)
        norm_num [posC1, h85])

/-! ### Claim C2 -/

/-- A failed lookup means the key is absent from the association list. -/
lemma lookup_none_not_mem_keys (m : Positions) (k : String)
    (h : m.lookup k = none) : k ∉ m.map Prod.fst := by
  induction m with
  | nil => simp
  | cons hd tl ih =>
    simp only [List.lookup] at h
    by_cases hk : k = hd.1
    · simp [hk, beq_self_eq_true] at h
    · simp only [List.map_cons, List.mem_cons]
      rintro (rfl | hmem)
      · exact hk rfl
      · have hbeq : (k == hd.1) = false := beq_eq_false_iff_ne.mpr hk
        rw [hbeq] at h
        exact ih h hmem

/-- Overwriting an existing key leaves the key list unchanged. -/
lemma dictInsert_keys_of_mem (m : Positions) (k : String) (v : ArbitragePosition)
    (h : (m.lookup k).isSome) :
    (dictInsert m k v).map Prod.fst = m.map Prod.fst := by
  unfold dictInsert
  rw [if_pos h, List.map_map]
  apply List.map_congr_left
  intro p _
  by_cases hp : p.1 = k
  · simp [hp]
  · simp [hp]

/-- dict assignment preserves distinctness of keys. -/
lemma dictInsert_keys_nodup (m : Positions) (k : String) (v : ArbitragePosition)
    (h : (m.map Prod.fst).Nodup) :
    ((dictInsert m k v).map Prod.fst).Nodup := by
  by_cases hk : (m.lookup k).isSome
  · rw [dictInsert_keys_of_mem m k v hk]
    exact h
  · have hnone : m.lookup k = none := Option.not_isSome_iff_eq_none.mp hk
    have hnotmem := lookup_none_not_mem_keys m k hnone
    unfold dictInsert
    rw [if_neg hk, List.map_append]
    simp [List.nodup_append, h, hnotmem]

/-- C2: the open-positions dict holds at most one Position per pair (distinct
keys are preserved by registration), analyze_arbitrage_opportunity never
returns an OPEN signal while a position for the pair exists (any emitted
signal is a CLOSE), and registering a signal for an already-open pair does not
create a second entry. -/
theorem C2_single_position_per_pair (positions : Positions) (st fu : String)
    (sp fp thr : ℚ) (ts : String) (sig signal : ArbitrageSignal) :
    ((positions.lookup (st ++ "_" ++ fu)).isSome →
      analyze_arbitrage_opportunity positions st fu sp fp ts thr = some sig →
      sig.action = "CLOSE")
    ∧ ((positions.map Prod.fst).Nodup →
        ((register_position positions signal).map Prod.fst).Nodup)
    ∧ ((positions.lookup
          (signal.stock_ticker ++ "_" ++ signal.futures_ticker)).isSome →
        (register_position positions signal).map Prod.fst
          = positions.map Prod.fst) := by
  refine ⟨?_, ?_, ?_⟩
  · intro hsome hana
    unfold analyze_arbitrage_opportunity at hana
    cases hsp : calculate_spread sp fp st fu with
    | none => rw [hsp] at hana; cases hana
    | some spread =>
      rw [hsp] at hana
      cases hlk : positions.lookup (st ++ "_" ++ fu) with
      | none => rw [hlk] at hsome; cases hsome
      | some pos =>
        simp only [hlk] at hana
        have := checkCloseSignal_eq_some pos spread sp fp ts sig hana
        rw [this]
  · intro hnd
    unfold register_position
    by_cases ha : signal.action = "OPEN"
    · rw [if_pos ha]
      exact dictInsert_keys_nodup _ _ _ hnd
    · rw [if_neg ha]
      exact hnd
  · intro hsome
    unfold register_position
    by_cases ha : signal.action = "OPEN"
    · rw [if_pos ha]
      exact dictInsert_keys_of_mem _ _ _ hsome
    · rw [if_neg ha]

/-- The CLOSE signal the calculator produces for posC1 at prices 100/100.2. -/
def sigC2 : ArbitrageSignal :=
  { stock_ticker := "SBER"
    futures_ticker := "SBERF"
    stock_price := 100
    futures_price := 100.2
    spread_percent := (100.2 - 100) / 100 * 100
    action := "CLOSE"
    stock_position := "SELL"
    futures_position := "BUY"
    stock_lots := 1
    futures_lots := 1
    timestamp := "t1"
    urgency_level := 1 }

/-- An OPEN signal for a pair not in the C2 witness dict. -/
def sigOpenNew : ArbitrageSignal :=
  { stock_ticker := "GAZP"
    futures_ticker := "GAZPF"
    stock_price := 100
    futures_price := 103
    spread_percent := 3
    action := "OPEN"
    stock_position := "BUY"
    futures_position := "SELL"
    stock_lots := 1
    futures_lots := 1
    timestamp := "t1"
    urgency_level := 3 }

/-- An OPEN signal for the pair already present in the C2 witness dict. -/
def sigOpenDup : ArbitrageSignal :=
  { stock_ticker := "SBER"
    futures_ticker := "SBERF"
    stock_price := 100
    futures_price := 103
    spread_percent := 3
    action := "OPEN"
    stock_position := "BUY"
    futures_position := "SELL"
    stock_lots := 1
    futures_lots := 1
    timestamp := "t1"
    urgency_level := 3 }

/-- Concrete evaluation: at prices 100 / 100.2 the stored position posC1
produces exactly the CLOSE record sigC2. -/
lemma close_posC1 :
    checkCloseSignal posC1 ((100.2 - 100) / 100 * 100) 100 100.2 "t1" = some sigC2 := by
  have h2 : |posC1.entry_spread| = 2 := by
    simp only [posC1]
    exact abs_of_pos (by norm_num)
  have hc : |((100.2:ℚ) - 100) / 100 * 100| = 1/5 := by
    rw [show ((100.2:ℚ) - 100) / 100 * 100 = 1/5 by norm_num]
    exact abs_of_pos (by norm_num)
  simp only [checkCloseSignal, h2, hc]
  norm_num [posC1, sigC2]

/-- Concrete evaluation of the full analysis pass on the one-entry dict. -/
lemma analyze_close_posC1 :
    analyze_arbitrage_opportunity [("SBER_SBERF", posC1)] "SBER" "SBERF"
      100 100.2 "t1" 1 = some sigC2 := by
  have hsp := calculate_spread_of_pos 100 100.2 "SBER" "SBERF"
    (by norm_num) (by norm_num)
  have hlk : (([("SBER_SBERF", posC1)] : Positions).lookup
      ("SBER" ++ "_" ++ "SBERF")) = some posC1 := by decide
  simp only [analyze_arbitrage_opportunity, hsp, hlk]
  exact close_posC1

/-- Witness for C2 on a concrete one-entry dict. -/
theorem C2_single_position_per_pair_witness :
    sigC2.action = "CLOSE"
    ∧ ((register_position [("SBER_SBERF", posC1)] sigOpenNew).map Prod.fst).Nodup
    ∧ (register_position [("SBER_SBERF", posC1)] sigOpenDup).map Prod.fst
        = [("SBER_SBERF", posC1)].map Prod.fst :=
  ⟨(C2_single_position_per_pair [("SBER_SBERF", posC1)] "SBER" "SBERF"
      100 100.2 1 "t1" sigC2 sigOpenNew).1 (by decide) analyze_close_posC1,
   (C2_single_position_per_pair [("SBER_SBERF", posC1)] "SBER" "SBERF"
      100 100.2 1 "t1" sigC2 sigOpenNew).2.1 (by decide),
   (C2_single_position_per_pair [("SBER_SBERF", posC1)] "SBER" "SBERF"
      100 100.2 1 "t1" sigC2 sigOpenDup).2.2 (by decide)⟩

/-! ### Claim C4 -/

/-- C4: an OPEN signal has stock BUY / futures SELL exactly when its spread is
positive and the reversed directions otherwise (so the legs are always
mutually opposite), and a CLOSE signal carries the stored position's leg
directions flipped together with the entry lot sizes. -/
theorem C4_leg_directions (st fu : String) (sp fp spread : ℚ) (ts : String)
    (pos : ArbitragePosition) (c s f : ℚ) (ts2 : String) (sig : ArbitrageSignal) :
    ((generateOpenSignal st fu sp fp spread ts).action = "OPEN"
      ∧ (generateOpenSignal st fu sp fp spread ts).stock_position
          = (if spread > 0 then "BUY" else "SELL")
      ∧ (generateOpenSignal st fu sp fp spread ts).futures_position
          = (if spread > 0 then "SELL" else "BUY"))
    ∧ (checkCloseSignal pos c s f ts2 = some sig →
        (sig.action = "CLOSE"
          ∧ sig.stock_position = (if pos.stock_position = "BUY" then "SELL" else "BUY")
          ∧ sig.futures_position = (if pos.futures_position = "BUY" then "SELL" else "BUY")
          ∧ sig.stock_lots = pos.stock_lots
          ∧ sig.futures_lots = pos.futures_lots)) := by
  constructor
  · refine ⟨rfl, rfl, rfl⟩
  · intro h
    have := checkCloseSignal_eq_some pos c s f ts2 sig h
    rw [this]
    exact ⟨rfl, rfl, rfl, rfl, rfl⟩

/-- Witness for C4: the close branch instantiated at posC1's CLOSE signal. -/
theorem C4_leg_directions_witness :
    sigC2.action = "CLOSE"
    ∧ sigC2.stock_position = (if posC1.stock_position = "BUY" then "SELL" else "BUY")
    ∧ sigC2.futures_position = (if posC1.futures_position = "BUY" then "SELL" else "BUY")
    ∧ sigC2.stock_lots = posC1.stock_lots
    ∧ sigC2.futures_lots = posC1.futures_lots :=
  (C4_leg_directions "SBER" "SBERF" 100 100.2 2 "t1" posC1
    ((100.2 - 100) / 100 * 100) 100 100.2 "t1" sigC2).2 close_posC1

/-! ### Claim C5 -/

/-- C5 (evidence of the code defect): with the live config, which has no
get_futures_lot_value method, every call to calculate_position_sizes takes the
exception fallback and returns (1, 1) — in particular at the failing input
("GAZP", "GAZPF") — so the lot-ratio branches of lines 78-91 are unreachable
and no pair is ever sized by the ratio rule. -/
theorem C5_position_sizes_always_one :
    calculate_position_sizes "GAZP" "GAZPF" = (1, 1)
    ∧ ∀ st fu : String, calculate_position_sizes st fu = (1, 1) :=
  ⟨rfl, fun _ _ => rfl⟩

/-! ### Claim C9 -/

/-- A non-positive price makes calculate_spread return None. -/
lemma calculate_spread_none (s f : ℚ) (st fu : String) (h : s ≤ 0 ∨ f ≤ 0) :
    calculate_spread s f st fu = none := by
  simp only [calculate_spread]
  rw [if_pos h]

/-- When the spread is None the analysis returns no signal. -/
lemma analyze_none_of_spread_none (positions : Positions) (st fu : String)
    (sp fp : ℚ) (ts : String) (thr : ℚ)
    (h : calculate_spread sp fp st fu = none) :
    analyze_arbitrage_opportunity positions st fu sp fp ts thr = none := by
  simp only [analyze_arbitrage_opportunity, h]

/-- C9: a quote pair with a missing or non-positive price produces no signal
and leaves the open-positions dict exactly as it was. -/
theorem C9_bad_quotes_no_effect (positions : Positions) (st fu : String)
    (sp fp : Option ℚ) (ts : String) (thr : ℚ)
    (h : sp = none ∨ fp = none
      ∨ (∃ x, sp = some x ∧ x ≤ 0) ∨ (∃ y, fp = some y ∧ y ≤ 0)) :
    processQuote positions st fu sp fp ts thr = (none, positions) := by
  rcases h with h | h | ⟨x, hx, hxle⟩ | ⟨y, hy, hyle⟩
  · subst h
    cases fp <;> simp [processQuote]
  · subst h
    cases sp <;> simp [processQuote]
  · subst hx
    cases fp with
    | none => simp [processQuote]
    | some y =>
      have hana := analyze_none_of_spread_none positions st fu x y ts thr
        (calculate_spread_none x y st fu (Or.inl hxle))
      simp [processQuote, hana]
  · subst hy
    cases sp with
    | none => simp [processQuote]
    | some x =>
      have hana := analyze_none_of_spread_none positions st fu x y ts thr
        (calculate_spread_none x y st fu (Or.inr hyle))
      simp [processQuote, hana]

/-- Witness for C9: a missing futures quote and a zero stock price both leave
the one-entry dict untouched and emit nothing. -/
theorem C9_bad_quotes_no_effect_witness :
    processQuote [("SBER_SBERF", posC1)] "SBER" "SBERF" (some 100) none "t1" 1
      = (none, [("SBER_SBERF", posC1)])
    ∧ processQuote [("SBER_SBERF", posC1)] "SBER" "SBERF" (some 0) (some 101) "t1" 1
      = (none, [("SBER_SBERF", posC1)]) :=
  ⟨C9_bad_quotes_no_effect [("SBER_SBERF", posC1)] "SBER" "SBERF"
      (some 100) none "t1" 1 (Or.inr (Or.inl rfl)),
   C9_bad_quotes_no_effect [("SBER_SBERF", posC1)] "SBER" "SBERF"
      (some 0) (some 101) "t1" 1
      (Or.inr (Or.inr (Or.inl ⟨0, rfl, le_refl 0⟩)))⟩

/-! ### Claim C10 -/

/-- monitoring.py, _send_signals (lines 236-256), handling of a single signal,
and the identical pattern in telegram_bot.py send_arbitrage_signal
(lines 1224-1233): every subscriber to whom the send fails is collected in
failed_subscribers and then discarded from self.subscribers.  `sendOk u` is
true when the Telegram send to user u succeeds. -/
def sendSignalToSubscribers (subscribers : List ℤ) (sendOk : ℤ → Bool) : List ℤ :=
  let failed_subscribers := subscribers.filter (fun u => !(sendOk u))
  subscribers.filter (fun u => !(failed_subscribers.contains u))

/-- C10 counterexample: subscriber 1 suffers a delivery failure and is removed
from the subscriber set by the dispatch itself, contradicting the claim that
failed recipients remain subscribed. -/
theorem C10_counterexample_failed_removed :
    ¬ ((1:ℤ) ∈ sendSignalToSubscribers [1] (fun _ => false)) := by decide

/-- C10 (amended): after a dispatch, a user is still subscribed iff they were
subscribed before and their delivery succeeded; equivalently, exactly the
recipients with failed sends are dropped by the dispatch itself. -/
theorem C10_failed_subscribers_dropped (subscribers : List ℤ) (sendOk : ℤ → Bool)
    (u : ℤ) :
    u ∈ sendSignalToSubscribers subscribers sendOk
      ↔ (u ∈ subscribers ∧ sendOk u = true) := by
  simp only [sendSignalToSubscribers, List.mem_filter, Bool.not_eq_true']
  constructor
  · rintro ⟨hmem, hcon⟩
    refine ⟨hmem, ?_⟩
    by_contra hko
    have hfalse : sendOk u = false := by
      cases hsend : sendOk u
      · rfl
      · exact absurd hsend hko
    have hmemf : u ∈ subscribers.filter (fun v => !(sendOk v)) :=
      List.mem_filter.mpr ⟨hmem, by simp [hfalse]⟩
    have hc : (subscribers.filter (fun v => !(sendOk v))).contains u = true := by
      simp [List.elem_iff, hmemf]
    rw [hcon] at hc
    cases hc
  · rintro ⟨hmem, hok⟩
    refine ⟨hmem, ?_⟩
    have : u ∉ subscribers.filter (fun v => !(sendOk v)) := by
      simp [List.mem_filter, hok]
    simp [List.elem_iff, this]

/-! ### Claim C7 -/

/-- monitoring.py, _monitoring_cycle (line 123):
total_batches = (len(instruments_list) + max_pairs_per_batch - 1) // max_pairs_per_batch. -/
def totalBatches (numInstruments : ℕ) : ℕ :=
  (numInstruments + MAX_PAIRS_PER_BATCH - 1) / MAX_PAIRS_PER_BATCH

/-- monitoring.py, _monitoring_cycle (lines 139-143): the slice
instruments_list[start_idx:end_idx] with start_idx = batch_index * B and
end_idx = min(start_idx + B, len). -/
def batchSlice {α : Type} (instruments : List α) (batch_index : ℕ) : List α :=
  (instruments.drop (batch_index * MAX_PAIRS_PER_BATCH)).take MAX_PAIRS_PER_BATCH

/-- monitoring.py, _monitoring_cycle (line 128):
self.current_batch_index = (self.current_batch_index + 1) % total_batches
(the smart-rotation branch, SMART_ROTATION_ENABLED = True). -/
def nextBatchIndex (numInstruments current : ℕ) : ℕ :=
  (current + 1) % totalBatches numInstruments

/-- Concatenating the first k batch slices yields the first k·B instruments. -/
lemma batchSlices_flatten {α : Type} (l : List α) (k : ℕ) :
    ((List.range k).map (batchSlice l)).flatten
      = l.take (k * MAX_PAIRS_PER_BATCH) := by
  induction k with
  | zero => simp
  | succ n ih =>
    rw [List.range_succ, List.map_append, List.flatten_append, ih,
      Nat.succ_mul, List.take_add]
    simp [batchSlice]

/-- C7: with smart rotation, the batches are consecutive disjoint slices, the
index advances by one per cycle modulo ceil(U/B), concatenating the
ceil(U/B) slices reproduces the instrument list exactly (each instrument once,
no duplicates, none skipped), and for U = 7, B = 3 the slice sizes are
[3, 3, 1] with the 4th cycle restarting at batch 0. -/
theorem C7_smart_rotation_coverage (l : List (String × String)) :
    ((List.range (totalBatches l.length)).map (batchSlice l)).flatten = l
    ∧ (∀ current, nextBatchIndex l.length current
        = (current + 1) % totalBatches l.length)
    ∧ totalBatches 7 = 3
    ∧ (batchSlice (List.range 7) 0).length = 3
    ∧ (batchSlice (List.range 7) 1).length = 3
    ∧ (batchSlice (List.range 7) 2).length = 1
    ∧ nextBatchIndex 7 0 = 1
    ∧ nextBatchIndex 7 1 = 2
    ∧ nextBatchIndex 7 2 = 0 := by
  refine ⟨?_, fun current => rfl, by decide, by decide, by decide, by decide,
    by decide, by decide, by decide⟩
  rw [batchSlices_flatten]
  apply List.take_of_length_le
  simp only [totalBatches, MAX_PAIRS_PER_BATCH]
  omega

/-! ### Claim C8 -/

/-- moex_api.py, _make_request (lines 111, 118, 136, 142): the backoff delay
RETRY_DELAY * BACKOFF_MULTIPLIER ** attempt slept after attempt number
`attempt` (0-based). -/
def retrySleep (attempt : ℕ) : ℚ :=
  RETRY_DELAY * BACKOFF_MULTIPLIER ^ attempt

/-- moex_api.py, _make_request (lines 92-148): the retry loop over HTTP
responses, modelled over the sequence of status codes the server returns.
`remaining` is the number of loop iterations left, `attempt` the 0-based index
of the next attempt, `sleeps` the accumulated backoff delays.  The result is
(parsed body — represented by the index of the succeeding response —, number
of attempts performed, list of sleeps).  Branches follow the source: 200
returns the body; 401/403 return None without retrying; 429 and 5xx sleep the
backoff delay and continue; any other status returns None. -/
def makeRequestGo (responses : ℕ → ℕ) :
    ℕ → ℕ → List ℚ → Option ℕ × ℕ × List ℚ
  | 0, attempt, sleeps => (none, attempt, sleeps)
  | remaining + 1, attempt, sleeps =>
    let status := responses attempt
    if status = 200 then (some attempt, attempt + 1, sleeps)
    else if status = 401 ∨ status = 403 then (none, attempt + 1, sleeps)
    else if status = 429 then
      makeRequestGo responses remaining (attempt + 1) (sleeps ++ [retrySleep attempt])
    else if 500 ≤ status then
      makeRequestGo responses remaining (attempt + 1) (sleeps ++ [retrySleep attempt])
    else (none, attempt + 1, sleeps)

/-- The function _make_request with the attempt bound as an explicit parameter
(the source reads it from self.config.RETRY_ATTEMPTS). -/
def makeRequestWith (retry_attempts : ℕ) (responses : ℕ → ℕ) :
    Option ℕ × ℕ × List ℚ :=
  makeRequestGo responses retry_attempts 0 []

/-- The live _make_request entry point at the config value RETRY_ATTEMPTS. -/
def makeRequest (responses : ℕ → ℕ) : Option ℕ × ℕ × List ℚ :=
  makeRequestWith RETRY_ATTEMPTS responses

/-- Exhausting the loop on all-5xx responses: the loop performs every
remaining attempt, sleeps the backoff after each one, and returns None. -/
lemma makeRequestGo_all_5xx (responses : ℕ → ℕ) :
    ∀ (remaining attempt : ℕ) (sleeps : List ℚ),
      (∀ i, attempt ≤ i → i < attempt + remaining → 500 ≤ responses i) →
      makeRequestGo responses remaining attempt sleeps
        = (none, attempt + remaining,
           sleeps ++ (List.range remaining).map (fun j => retrySleep (attempt + j))) := by
  intro remaining
  induction remaining with
  | zero =>
    intro attempt sleeps _
    simp [makeRequestGo]
  | succ n ih =>
    intro attempt sleeps h
    have h0 : 500 ≤ responses attempt := h attempt le_rfl (by omega)
    have h200 : ¬ (responses attempt = 200) := by omega
    have h4x : ¬ (responses attempt = 401 ∨ responses attempt = 403) := by omega
    have h429 : ¬ (responses attempt = 429) := by omega
    have hrec := ih (attempt + 1) (sleeps ++ [retrySleep attempt])
      (fun i hi1 hi2 => h i (by omega) (by omega))
    simp only [makeRequestGo, h200, h4x, h429, h0, if_false, if_true,
      if_neg, ite_false, ite_true, hrec, Prod.mk.injEq, true_and]
    refine ⟨by omega, ?_⟩
    rw [List.range_succ_eq_map, List.map_cons, List.map_map, List.append_assoc]
    simp only [List.singleton_append, Nat.add_zero]
    congr 1
    congr 1
    apply List.map_congr_left
    intro j _
    simp only [Function.comp_apply]
    congr 1
    omega

/-- N leading 5xx responses followed by a 200 inside the bound: the loop
performs exactly N+1 attempts, sleeps the backoff after each failed one, and
returns the body of response N. -/
lemma makeRequestGo_5xx_then_200 (responses : ℕ → ℕ) :
    ∀ (N remaining attempt : ℕ) (sleeps : List ℚ),
      (∀ i, attempt ≤ i → i < attempt + N → 500 ≤ responses i) →
      responses (attempt + N) = 200 →
      N < remaining →
      makeRequestGo responses remaining attempt sleeps
        = (some (attempt + N), attempt + N + 1,
           sleeps ++ (List.range N).map (fun j => retrySleep (attempt + j))) := by
  intro N
  induction N with
  | zero =>
    intro remaining attempt sleeps _ h200 hlt
    cases remaining with
    | zero => omega
    | succ m =>
      simp only [Nat.add_zero] at h200
      simp [makeRequestGo, h200]
  | succ n ih =>
    intro remaining attempt sleeps h h200 hlt
    cases remaining with
    | zero => omega
    | succ m =>
      have h0 : 500 ≤ responses attempt := h attempt le_rfl (by omega)
      have hn200 : ¬ (responses attempt = 200) := by omega
      have h4x : ¬ (responses attempt = 401 ∨ responses attempt = 403) := by omega
      have h429 : ¬ (responses attempt = 429) := by omega
      have hrec := ih m (attempt + 1) (sleeps ++ [retrySleep attempt])
        (fun i hi1 hi2 => h i (by omega) (by omega))
        (by rw [show attempt + 1 + n = attempt + (n + 1) by omega]; exact h200)
        (by omega)
      simp only [makeRequestGo, hn200, h4x, h429, h0, if_neg, ite_false,
        ite_true, if_true, hrec, Prod.mk.injEq, Option.some.injEq]
      refine ⟨by omega, by omega, ?_⟩
      rw [List.range_succ_eq_map, List.map_cons, List.map_map, List.append_assoc]
      simp only [List.singleton_append, Nat.add_zero]
      congr 1
      congr 1
      apply List.map_congr_left
      intro j _
      simp only [Function.comp_apply]
      congr 1
      omega

/-- C8: if the first N responses are 5xx and response N is 200 with
N+1 ≤ retry_attempts, _make_request performs exactly N+1 attempts, returns the
parsed body of response N, and sleeps RETRY_DELAY * BACKOFF_MULTIPLIER^i after
each failed attempt i; if every response up to the bound is 5xx it performs
exactly retry_attempts attempts and returns None instead of raising; the live
entry point is the instance at RETRY_ATTEMPTS. -/
theorem C8_retry_with_backoff (retry_attempts : ℕ) (responses : ℕ → ℕ) (N : ℕ) :
    ((∀ i, i < N → 500 ≤ responses i) → responses N = 200 →
      N + 1 ≤ retry_attempts →
      makeRequestWith retry_attempts responses
        = (some N, N + 1, (List.range N).map retrySleep))
    ∧ ((∀ i, i < retry_attempts → 500 ≤ responses i) →
      makeRequestWith retry_attempts responses
        = (none, retry_attempts, (List.range retry_attempts).map retrySleep))
    ∧ makeRequest responses = makeRequestWith RETRY_ATTEMPTS responses := by
  refine ⟨?_, ?_, rfl⟩
  · intro h h200 hle
    have := makeRequestGo_5xx_then_200 responses N retry_attempts 0 []
      (fun i hi1 hi2 => h i (by omega)) (by simpa using h200) (by omega)
    simpa [makeRequestWith] using this
  · intro h
    have := makeRequestGo_all_5xx responses retry_attempts 0 []
      (fun i hi1 hi2 => h i (by omega))
    simpa [makeRequestWith] using this

/-- Witness for C8: one 503 then a 200 under a bound of 2 attempts gives the
body of response 1 after 2 attempts and one backoff sleep; a single 503 under
the bound of 1 attempt exhausts the loop and yields None. -/
theorem C8_retry_with_backoff_witness :
    makeRequestWith 2 (fun i => if i = 0 then 503 else 200)
      = (some 1, 1 + 1, (List.range 1).map retrySleep)
    ∧ makeRequestWith 1 (fun _ => 503)
      = (none, 1, (List.range 1).map retrySleep) :=
  ⟨(C8_retry_with_backoff 2 (fun i => if i = 0 then 503 else 200) 1).1
      (by intro i hi; have hiz : i = 0 := by omega
          subst hiz; norm_num)
      (by norm_num) (by norm_num),
   (C8_retry_with_backoff 1 (fun _ => 503) 0).2.1
      (by intro i hi; norm_num)⟩

/-! ### Claim C6 -/

/-- moex_api.py, MOEXAPIClient rate-limiter state: last_request_time and
request_times (history of issue timestamps). -/
structure RLState where
  last_request_time : ℚ
  request_times : List ℚ

/-- moex_api.py, _rate_limit (line 48): drop entries older than 60 seconds. -/
def rlPruned (st : RLState) (now : ℚ) : List ℚ :=
  st.request_times.filter (fun t => decide (now - t < 60))

/-- moex_api.py, _rate_limit (lines 51-56): when the pruned history has
reached MAX_REQUESTS_PER_MINUTE entries, sleep until the oldest entry leaves
the 60-second window (sleep advances the idealized clock by exactly the
requested amount). -/
def rlAfterWindow (st : RLState) (now : ℚ) : ℚ :=
  if MAX_REQUESTS_PER_MINUTE ≤ (rlPruned st now).length then
    let sleep_time := 60 - (now - (rlPruned st now).headI)
    if 0 < sleep_time then now + sleep_time else now
  else now

/-- moex_api.py, _rate_limit (lines 59-62): enforce the minimum spacing
RATE_LIMIT_DELAY from the previous request. -/
def rlIssueTime (st : RLState) (now : ℚ) : ℚ :=
  let now1 := rlAfterWindow st now
  if now1 - st.last_request_time < RATE_LIMIT_DELAY then
    now1 + (RATE_LIMIT_DELAY - (now1 - st.last_request_time))
  else now1

/-- moex_api.py, _rate_limit (lines 43-66): the full call, recording the new
request time at the end. -/
def rateLimit (st : RLState) (now : ℚ) : RLState :=
  ⟨rlIssueTime st now, rlPruned st now ++ [rlIssueTime st now]⟩

/-- Number of recorded timestamps inside the rolling 60-second window ending
at T. -/
def windowCount (l : List ℚ) (T : ℚ) : ℕ :=
  (l.filter (fun t => decide (T - t < 60 ∧ t ≤ T))).length

/-- Rate-limiter invariant: every recorded time is at most the last request
time, and no rolling 60-second window holds more than
MAX_REQUESTS_PER_MINUTE entries. -/
def RLInv (st : RLState) : Prop :=
  (∀ t ∈ st.request_times, t ≤ st.last_request_time)
  ∧ (∀ T : ℚ, windowCount st.request_times T ≤ MAX_REQUESTS_PER_MINUTE)

/-- The clock never moves backwards through the window phase. -/
lemma le_rlAfterWindow (st : RLState) (now : ℚ) : now ≤ rlAfterWindow st now := by
  unfold rlAfterWindow
  split
  · dsimp only
    split
    · linarith
    · exact le_refl now
  · exact le_refl now

/-- After the window phase the oldest retained entry is ≥ 60 seconds old,
provided the window limit was hit. -/
lemma rlAfterWindow_ge_head (st : RLState) (now : ℚ)
    (h : MAX_REQUESTS_PER_MINUTE ≤ (rlPruned st now).length) :
    (rlPruned st now).headI + 60 ≤ rlAfterWindow st now := by
  unfold rlAfterWindow
  rw [if_pos h]
  dsimp only
  split
  · linarith
  · linarith [not_lt.mp (by assumption : ¬ (0:ℚ) < 60 - (now - (rlPruned st now).headI))]

/-- The issue time respects the minimum spacing from the previous request. -/
lemma rlIssueTime_spacing (st : RLState) (now : ℚ) :
    st.last_request_time + RATE_LIMIT_DELAY ≤ rlIssueTime st now := by
  have h1 := le_rlAfterWindow st now
  unfold rlIssueTime
  dsimp only
  split
  · linarith
  · next hge => linarith [not_lt.mp hge]

/-- The issue time is never before the call time. -/
lemma le_rlIssueTime (st : RLState) (now : ℚ) : now ≤ rlIssueTime st now := by
  have h1 := le_rlAfterWindow st now
  unfold rlIssueTime
  dsimp only
  split
  · linarith
  · linarith

/-- The issue time is never before the end of the window sleep. -/
lemma rlAfterWindow_le_rlIssueTime (st : RLState) (now : ℚ) :
    rlAfterWindow st now ≤ rlIssueTime st now := by
  unfold rlIssueTime
  dsimp only
  split
  · linarith
  · exact le_refl _

/-- Under the invariant the pruned history is exactly the window ending now,
hence bounded by the per-minute maximum. -/
lemma rlPruned_length_le (st : RLState) (now : ℚ)
    (hlast : ∀ t ∈ st.request_times, t ≤ st.last_request_time)
    (hwin : ∀ T : ℚ, windowCount st.request_times T ≤ MAX_REQUESTS_PER_MINUTE)
    (hmono : st.last_request_time ≤ now) :
    (rlPruned st now).length ≤ MAX_REQUESTS_PER_MINUTE := by
  have hcongr : st.request_times.filter (fun t => decide (now - t < 60))
      = st.request_times.filter (fun t => decide (now - t < 60 ∧ t ≤ now)) := by
    apply List.filter_congr
    intro t ht
    have htle : t ≤ now := le_trans (hlast t ht) hmono
    by_cases hlt : now - t < 60
    · simp [hlt, htle]
    · simp [hlt]
  unfold rlPruned
  rw [hcongr]
  exact hwin now

/-- C6: one completed _rate_limit call preserves the rate-limiter invariant —
no rolling 60-second window of the recorded timestamps ever exceeds
MAX_REQUESTS_PER_MINUTE entries — and the newly recorded request time is at
least RATE_LIMIT_DELAY after the previous one, never earlier than the call
time, and is always appended (never dropped). -/
theorem C6_rate_limiter_bounds (st : RLState) (now : ℚ)
    (hinv : RLInv st) (hmono : st.last_request_time ≤ now) :
    RLInv (rateLimit st now)
    ∧ st.last_request_time + RATE_LIMIT_DELAY ≤ (rateLimit st now).last_request_time
    ∧ now ≤ (rateLimit st now).last_request_time
    ∧ (rateLimit st now).request_times
        = rlPruned st now ++ [(rateLimit st now).last_request_time] := by
  obtain ⟨hle, hwin⟩ := hinv
  have hspace := rlIssueTime_spacing st now
  have hnowle := le_rlIssueTime st now
  have hplen := rlPruned_length_le st now hle hwin hmono
  refine ⟨⟨?_, ?_⟩, hspace, hnowle, rfl⟩
  · -- every recorded time is ≤ the new last_request_time
    intro t ht
    simp only [rateLimit, List.mem_append, List.mem_singleton] at ht ⊢
    rcases ht with ht | rfl
    · have : t ∈ st.request_times := List.mem_of_mem_filter ht
      exact le_trans (le_trans (hle t this) hmono) hnowle
    · exact le_refl _
  · -- the rolling-window bound for the new history
    intro T
    simp only [rateLimit]
    unfold windowCount
    rw [List.filter_append, List.length_append]
    by_cases hT : T - rlIssueTime st now < 60 ∧ rlIssueTime st now ≤ T
    · -- the new entry lies inside the window: the old part has room for it
      have hnew : (([rlIssueTime st now]).filter
          (fun t => decide (T - t < 60 ∧ t ≤ T))).length = 1 := by
        simp [hT]
      rw [hnew]
      have hold : ((rlPruned st now).filter
          (fun t => decide (T - t < 60 ∧ t ≤ T))).length
            ≤ MAX_REQUESTS_PER_MINUTE - 1 := by
        by_cases hfull : MAX_REQUESTS_PER_MINUTE ≤ (rlPruned st now).length
        · -- window was full: the oldest pruned entry is outside the window
          have hne : rlPruned st now ≠ [] := by
            intro hnil
            rw [hnil] at hfull
            simp [MAX_REQUESTS_PER_MINUTE] at hfull
          obtain ⟨a, rest, hcons⟩ := List.exists_cons_of_ne_nil hne
          have hhead : (rlPruned st now).headI = a := by rw [hcons]; rfl
          have ha60 : a + 60 ≤ rlIssueTime st now := by
            have := rlAfterWindow_ge_head st now hfull
            have h2 := rlAfterWindow_le_rlIssueTime st now
            rw [hhead] at this
            linarith
          have hafail : ¬ (T - a < 60 ∧ a ≤ T) := by
            rintro ⟨h1, -⟩
            have : rlIssueTime st now ≤ T := hT.2
            linarith
          rw [hcons]
          rw [List.filter_cons]
          rw [if_neg (by simpa using hafail)]
          have hlen : (rest.filter (fun t => decide (T - t < 60 ∧ t ≤ T))).length
              ≤ rest.length := List.length_filter_le _ _
          have hrest : rest.length = (rlPruned st now).length - 1 := by
            rw [hcons]; rfl
          omega
        · -- window was not full: even counting everything leaves room
          have := List.length_filter_le
            (fun t => decide (T - t < 60 ∧ t ≤ T)) (rlPruned st now)
          omega
      have hM : 0 < MAX_REQUESTS_PER_MINUTE := by norm_num [MAX_REQUESTS_PER_MINUTE]
      omega
    · -- the new entry is outside the window: the count cannot grow
      have hnew : (([rlIssueTime st now]).filter
          (fun t => decide (T - t < 60 ∧ t ≤ T))).length = 0 := by
        simp [hT]
      rw [hnew]
      have hsub : List.Sublist
          ((rlPruned st now).filter (fun t => decide (T - t < 60 ∧ t ≤ T)))
          (st.request_times.filter (fun t => decide (T - t < 60 ∧ t ≤ T))) :=
        (List.filter_sublist st.request_times).filter _
      have := hsub.length_le
      have hwT := hwin T
      unfold windowCount at hwT
      omega

/-- Witness for C6: starting from the empty history at time 5. -/
theorem C6_rate_limiter_bounds_witness :
    RLInv (rateLimit ⟨0, []⟩ 5)
    ∧ (0:ℚ) + RATE_LIMIT_DELAY ≤ (rateLimit ⟨0, []⟩ 5).last_request_time
    ∧ (5:ℚ) ≤ (rateLimit ⟨0, []⟩ 5).last_request_time
    ∧ (rateLimit ⟨0, []⟩ 5).request_times
        = rlPruned ⟨0, []⟩ 5 ++ [(rateLimit ⟨0, []⟩ 5).last_request_time] :=
  C6_rate_limiter_bounds ⟨0, []⟩ 5
    ⟨fun t ht => absurd ht (List.not_mem_nil t),
     fun T => by simp [windowCount, rlPruned]⟩
    (by norm_num)

end ArbitrageBot
